import Mathlib

/-!
Verification development for the safety-utils repository: a shallow
embedding of the string, HTML, URL, structural and request sanitizers
(src/utils/sanitizer.ts, the xssGuard module, the sensitive-field helpers
and the sanitization config registry), together with theorems settling the
stated behavioral claims.

JavaScript values are modelled by the inductive type Value below: strings,
numbers (as Int), booleans, null together with undefined as one scalar
(matching the data model of one null or absent scalar; mappings never carry
the JavaScript value undefined here), Date and RegExp as opaque scalars,
arrays, and plain objects as ordered key-value lists. The external
DOMPurify primitive is not part of the repository; it is abstracted as a
function parameter: Option-valued where the source wraps the call in
try/catch (the xssGuard module, where none models a thrown exception) and
total where the source calls it bare (utils/sanitizer.ts).
-/

/- ### The JavaScript value model -/

mutual

inductive Value where
  | vStr : String → Value
  | vNum : Int → Value
  | vBool : Bool → Value
  | vNull : Value
  | vDate : Int → Value
  | vRegex : String → Value
  | vArr : ValueList → Value
  | vObj : ObjFields → Value
deriving DecidableEq

inductive ValueList where
  | nil : ValueList
  | cons : Value → ValueList → ValueList
deriving DecidableEq

inductive ObjFields where
  | nil : ObjFields
  | cons : String → Value → ObjFields → ObjFields
deriving DecidableEq

end

/-- Keys of an object, in property order, as Object.keys would list them. -/
def ObjFields.keys : ObjFields → List String
  | .nil => []
  | .cons k _ fs => k :: fs.keys

/-- Value of the first property named k, as property access data[k] reads it
on a key-unique object. -/
def ObjFields.lookup (k : String) : ObjFields → Option Value
  | .nil => none
  | .cons k1 v fs => if k1 = k then some v else ObjFields.lookup k fs

/-- Value of the last property named k; on entry lists a later entry wins,
matching object spread assignment order. -/
def ObjFields.lookupLast (k : String) : ObjFields → Option Value
  | .nil => none
  | .cons k1 v fs =>
    match ObjFields.lookupLast k fs with
    | some w => some w
    | none => if k1 = k then some v else none

/-- Concatenation of two property lists. -/
def ObjFields.append : ObjFields → ObjFields → ObjFields
  | .nil, g => g
  | .cons k v fs, g => .cons k v (ObjFields.append fs g)

/-- Fields of an object value; the sanitizers below only apply it to results
that are object values, so the default for other values is immaterial. -/
def objFields : Value → ObjFields
  | .vObj fs => fs
  | _ => .nil

/- ### Character classes used by the regular expressions in the source -/

/-- ASCII letter, the class a-z of the source regexes under the i flag. -/
def isAsciiLetter (c : Char) : Bool :=
  ('a' ≤ c && c ≤ 'z') || ('A' ≤ c && c ≤ 'Z')

/-- ASCII digit. -/
def isAsciiDigit (c : Char) : Bool := '0' ≤ c && c ≤ '9'

/-- The regex word class backslash-w. -/
def isWordChar (c : Char) : Bool := isAsciiLetter c || isAsciiDigit c || c = '_'

/-- The regex whitespace class backslash-s, restricted to its common members. -/
def isRegexSpace (c : Char) : Bool :=
  c = ' ' || c = '\t' || c = '\n' || c = '\r' || c = '\x0B' || c = '\x0C' || c = '\u00A0'

/-- Whitespace removed by String.prototype.trim. -/
def isJsSpace (c : Char) : Bool := isRegexSpace c || c = '\uFEFF'

/-- Leading and trailing whitespace removal on a character list. -/
def jsTrimL (l : List Char) : List Char :=
  ((l.dropWhile isJsSpace).reverse.dropWhile isJsSpace).reverse

/-- String.prototype.trim. -/
def jsTrim (s : String) : String := String.mk (jsTrimL s.data)

/-- ASCII lowering of a character list, the effect of the regex i flag on
the ASCII patterns used by the source. -/
def lowerL (l : List Char) : List Char := l.map Char.toLower

/-- Tries a predicate at every suffix of the list: the existence semantics of
an unanchored regex test. -/
def scanAny (f : List Char → Bool) : List Char → Bool
  | [] => f []
  | c :: cs => f (c :: cs) || scanAny f cs

/- ### The regex tag strip, value.replace of every complete tag match

The global replacement of the pattern: an opening angle bracket, a run of
characters other than a closing angle bracket, then a closing angle
bracket. At an opening bracket the engine consumes up to and including the
first closing bracket when one exists and otherwise leaves the character in
place. The recursion is fueled by the input length so that it is structural
and evaluates inside the kernel; the replacement consumes at least one
character per step, so fuel equal to the input length always suffices. -/

/-- Suffix after the first closing angle bracket, none when there is none. -/
def findGtSplit : List Char → Option (List Char)
  | [] => none
  | c :: cs => if c = '>' then some cs else findGtSplit cs

/-- Fueled single pass of the global tag replacement. -/
def stripTagsFuel : Nat → List Char → List Char
  | 0, l => l
  | _ + 1, [] => []
  | n + 1, c :: cs =>
    if c = '<' then
      match findGtSplit cs with
      | some rest => stripTagsFuel n rest
      | none => c :: stripTagsFuel n cs
    else c :: stripTagsFuel n cs

/-- The tag strip on character lists. -/
def stripTagsL (l : List Char) : List Char := stripTagsFuel l.length l

/-- The fallback value.replace removing every complete tag match. -/
def stripTagsS (s : String) : String := String.mk (stripTagsL s.data)

/-- No closing angle bracket occurs in the list. -/
def noGt (l : List Char) : Bool := l.all (fun c => c ≠ '>')

/-- No complete tag match remains: after the first opening angle bracket no
closing one ever occurs. -/
def cleanTags : List Char → Bool
  | [] => true
  | c :: cs => if c = '<' then noGt cs else cleanTags cs

theorem findGtSplit_length : ∀ (l : List Char) (rest : List Char),
    findGtSplit l = some rest → rest.length < l.length := by
  intro l
  induction l with
  | nil => intro rest h; simp [findGtSplit] at h
  | cons c cs ih =>
    intro rest h
    by_cases hc : c = '>'
    · simp [findGtSplit, hc] at h
      subst h
      simp
    · simp [findGtSplit, hc] at h
      have := ih rest h
      simp
      omega

theorem findGtSplit_of_noGt : ∀ (l : List Char), noGt l = true → findGtSplit l = none := by
  intro l
  induction l with
  | nil => intro _; rfl
  | cons c cs ih =>
    intro h
    simp [noGt, List.all_cons] at h
    have hcs : noGt cs = true := by simp [noGt]; exact h.2
    simp [findGtSplit, h.1, ih hcs]

theorem noGt_of_findGtSplit : ∀ (l : List Char), findGtSplit l = none → noGt l = true := by
  intro l
  induction l with
  | nil => intro _; rfl
  | cons c cs ih =>
    intro h
    by_cases hc : c = '>'
    · simp [findGtSplit, hc] at h
    · simp [findGtSplit, hc] at h
      have hcs : noGt cs = true := ih h
      simp [noGt, List.all_cons, hc]
      simpa [noGt] using hcs

theorem stripTagsFuel_of_noGt : ∀ (n : Nat) (l : List Char),
    noGt l = true → stripTagsFuel n l = l := by
  intro n
  induction n with
  | zero => intro l _; rfl
  | succ m ih =>
    intro l h
    cases l with
    | nil => rfl
    | cons c cs =>
      simp [noGt, List.all_cons] at h
      have hcs : noGt cs = true := by simp [noGt]; exact h.2
      by_cases hc : c = '<'
      · simp [stripTagsFuel, hc, findGtSplit_of_noGt cs hcs, ih cs hcs]
      · simp [stripTagsFuel, hc, ih cs hcs]

theorem cleanTags_stripTagsFuel : ∀ (n : Nat) (l : List Char),
    l.length ≤ n → cleanTags (stripTagsFuel n l) = true := by
  intro n
  induction n with
  | zero =>
    intro l h
    have : l = [] := List.length_eq_zero.mp (Nat.le_zero.mp h)
    subst this
    rfl
  | succ m ih =>
    intro l h
    cases l with
    | nil => rfl
    | cons c cs =>
      have hcs : cs.length ≤ m := by simp at h; omega
      by_cases hc : c = '<'
      · cases hsplit : findGtSplit cs with
        | some rest =>
          have hr : rest.length ≤ m := by
            have := findGtSplit_length cs rest hsplit
            omega
          simp [stripTagsFuel, hc, hsplit, ih rest hr]
        | none =>
          have hng : noGt cs = true := noGt_of_findGtSplit cs hsplit
          simp [stripTagsFuel, hc, hsplit, stripTagsFuel_of_noGt m cs hng, cleanTags, hng]
      · have := ih cs hcs
        simp [stripTagsFuel, hc, cleanTags, this]

theorem stripTagsFuel_of_cleanTags : ∀ (n : Nat) (l : List Char),
    cleanTags l = true → stripTagsFuel n l = l := by
  intro n
  induction n with
  | zero => intro l _; rfl
  | succ m ih =>
    intro l h
    cases l with
    | nil => rfl
    | cons c cs =>
      by_cases hc : c = '<'
      · have hng : noGt cs = true := by simpa [cleanTags, hc] using h
        simp [stripTagsFuel, hc, findGtSplit_of_noGt cs hng, stripTagsFuel_of_noGt m cs hng]
      · have hcs : cleanTags cs = true := by simpa [cleanTags, hc] using h
        simp [stripTagsFuel, hc, ih cs hcs]

theorem cleanTags_stripTagsL (l : List Char) : cleanTags (stripTagsL l) = true :=
  cleanTags_stripTagsFuel l.length l (Nat.le_refl _)

theorem stripTagsL_idem (l : List Char) : stripTagsL (stripTagsL l) = stripTagsL l :=
  stripTagsFuel_of_cleanTags (stripTagsL l).length (stripTagsL l) (cleanTags_stripTagsL l)

theorem stripTagsS_idem (s : String) : stripTagsS (stripTagsS s) = stripTagsS s := by
  unfold stripTagsS
  exact congrArg String.mk (stripTagsL_idem s.data)

/- ### The external DOM sanitizer primitive

The DOMPurify dependency is outside the repository. It is modelled as a
function of the ALLOWED_TAGS list, the ALLOWED_ATTR list and the input
string. DomPrim returns an Option, none standing for a thrown exception,
and embeds the call sites that the xssGuard module wraps in try/catch;
DomTotal is total and embeds the bare call in utils/sanitizer.ts. -/

abbrev DomPrim := List String → List String → String → Option String

abbrev DomTotal := List String → List String → String → String

/-- Model primitive for witnesses: a DOM sanitizer that never throws and
returns the regex tag strip of its input. -/
def domStripModel : DomPrim := fun _ _ s => some (stripTagsS s)

/-- Model primitive for witnesses of the total-call embedding. -/
def domTotalModel : DomTotal := fun _ _ s => stripTagsS s

namespace XssGuard

/-- Embedding of sanitizeString from the xssGuard module: on falsy input the
empty string, otherwise the DOM primitive with empty allowlists, and on a
thrown exception the regex tag strip of the input. Both copies of the
module agree on every string input. -/
def sanitizeString (dom : DomPrim) (value : String) : String :=
  if value = "" then ""
  else
    match dom [] [] value with
    | some r => r
    | none => stripTagsS value

/-- Default allowed tag list of sanitizeHTML. -/
def defaultAllowedTags : List String := ["b", "i", "u", "p", "span", "br"]

/-- Embedding of sanitizeHTML from the xssGuard module: the DOM primitive
with the given tag allowlist and the class and style attributes, falling
back to sanitizeString when the primitive throws. -/
def sanitizeHTML (dom : DomPrim) (html : String) (allowedTags : List String) : String :=
  if html = "" then ""
  else
    match dom allowedTags ["class", "style"] html with
    | some r => r
    | none => sanitizeString dom html

/-- Replacement of every occurrence of one character by a string, the
single-character global String.prototype.replace. -/
def charReplace (c : Char) (rep : List Char) : List Char → List Char
  | [] => []
  | x :: xs => (if x = c then rep else [x]) ++ charReplace c rep xs

/-- Embedding of escapeHTML: the five sequential global replaces, ampersand
first, then the angle brackets, the double quote and the apostrophe. -/
def escapeHTML (text : String) : String :=
  if text = "" then ""
  else
    String.mk (charReplace '\'' "&#039;".data (charReplace '\"' "&quot;".data
      (charReplace '>' "&gt;".data (charReplace '<' "&lt;".data
        (charReplace '&' "&amp;".data text.data)))))

end XssGuard

/- ### The two URL validators of the xssGuard module -/

/-- String.prototype.startsWith, evaluated on the character lists so that
it reduces inside the kernel. -/
def strStartsWith (s pre : String) : Bool := List.isPrefixOf pre.data s.data

/-- Characters of the host classes of both URL regexes: word characters,
dot and dash. -/
def isHostChar (c : Char) : Bool := isWordChar c || c = '.' || c = '-'

/-- Characters of the trailing class of the first URL regex. -/
def isUrlTailChar (c : Char) : Bool :=
  isHostChar c || c = '_' || c = '~' || c = ':' || c = '/' || c = '?' || c = '#' ||
  c = '[' || c = ']' || c = '@' || c = '!' || c = '$' || c = '&' || c = '\'' ||
  c = '(' || c = ')' || c = '*' || c = '+' || c = ',' || c = ';' || c = '='

/-- Match of the host heart of the first URL regex: a nonempty run of host
characters, then a dot, then a nonempty run of host characters, as one
group; since the host class itself contains the dot, this reduces to a list
of host characters with a dot strictly inside. -/
def hostPartMatch (w : List Char) : Bool :=
  w.all isHostChar && ((w.drop 1).dropLast.contains '.')

/-- Match of the first URL regex after its optional scheme group: a host
part followed by a nonempty run of trailing-class characters. -/
def urlRestMatch (cs : List Char) : Bool :=
  (List.range cs.length).any
    (fun p => hostPartMatch (cs.take p) && (cs.drop p).all isUrlTailChar)

/-- Match of the first URL regex with one concrete scheme alternative. -/
def urlSchemeAndRest (pre : String) (cs : List Char) : Bool :=
  List.isPrefixOf pre.data cs && urlRestMatch (cs.drop pre.length)

/-- Anchored test of the full first URL regex: optional http, https or
mailto scheme with two slashes, then host part, then trailing run. -/
def urlPatternTest (s : String) : Bool :=
  urlRestMatch s.data || urlSchemeAndRest "http://" s.data ||
  urlSchemeAndRest "https://" s.data || urlSchemeAndRest "mailto://" s.data

namespace XssGuard

/-- Embedding of the first sanitizeUrl copy: falsy input gives the hash
fallback, a regex match keeps the input or prepends the https scheme when
the input starts with neither http nor mailto, and anything else gives the
hash fallback. -/
def sanitizeUrlV1 (url : String) : String :=
  if url = "" then "#"
  else if urlPatternTest url then
    if !(strStartsWith url "http") && !(strStartsWith url "mailto:") then "https://" ++ url
    else url
  else "#"

/-- Prefix test of the bare-domain regex of the second sanitizeUrl copy: a
nonempty run of host characters, a dot, then at least one host character,
at the start of the string. -/
def domainPrefixTest (cs : List Char) : Bool :=
  (List.range cs.length).any
    (fun i =>
      i != 0 && (cs.take i).all isHostChar &&
        (match cs.drop i with
         | '.' :: c :: _ => isHostChar c
         | _ => false))

/-- Embedding of the second sanitizeUrl copy: falsy input gives the hash
fallback, an allowlisted scheme prefix keeps the input, a bare-domain shape
gets the https scheme prepended, and anything else gives the hash
fallback. -/
def sanitizeUrlV2 (url : String) : String :=
  if url = "" then "#"
  else if strStartsWith url "http://" || strStartsWith url "https://" || strStartsWith url "mailto:" then url
  else if domainPrefixTest url.data then "https://" ++ url
  else "#"

end XssGuard

/- ### The script-tag test of the second object sanitizer copy

The regex: a literal script open bracket, a word boundary, a run of
characters other than a closing angle bracket, a closing angle bracket, a
lazy run of characters other than a newline, then the literal closing
script tag, tested case-insensitively anywhere in the string. -/

/-- Continuation after the closing angle bracket of the script open tag: the
literal closing script tag must occur before any newline. -/
def closeScriptScan : List Char → Bool
  | '<' :: '/' :: 's' :: 'c' :: 'r' :: 'i' :: 'p' :: 't' :: '>' :: _ => true
  | '\n' :: _ => false
  | _ :: cs => closeScriptScan cs
  | [] => false

/-- Match of the script-tag regex at one position of a lowered list. -/
def matchScriptTag : List Char → Bool
  | '<' :: 's' :: 'c' :: 'r' :: 'i' :: 'p' :: 't' :: cs =>
    (match cs with
     | c :: _ =>
       !(isWordChar c) &&
         (match findGtSplit cs with
          | some rest => closeScriptScan rest
          | none => false)
     | [] => false)
  | _ => false

/-- Existence test of the script-tag regex over the whole string. -/
def scriptTagTest (s : String) : Bool := scanAny matchScriptTag (lowerL s.data)

/- ### The two object sanitizer copies of the xssGuard module

Primitive values and top-level strings pass through the initial guard
unchanged. A Date or RegExp value reaches the object branch, whose
Object.entries is empty, so it collapses to an empty object. The first copy
applies sanitizeString to object property strings and leaves array element
strings untouched; the second copy applies the script-tag test and the
regex tag strip to both. -/

mutual

def XssGuard.sanitizeObjectV1 (dom : DomPrim) : Value → Value
  | .vStr s => .vStr s
  | .vNum n => .vNum n
  | .vBool b => .vBool b
  | .vNull => .vNull
  | .vDate _ => .vObj .nil
  | .vRegex _ => .vObj .nil
  | .vArr xs => .vArr (XssGuard.sanitizeObjectV1List dom xs)
  | .vObj fs => .vObj (XssGuard.sanitizeObjectV1Fields dom fs)

def XssGuard.sanitizeObjectV1List (dom : DomPrim) : ValueList → ValueList
  | .nil => .nil
  | .cons v vs => .cons (XssGuard.sanitizeObjectV1 dom v) (XssGuard.sanitizeObjectV1List dom vs)

def XssGuard.sanitizeObjectV1Fields (dom : DomPrim) : ObjFields → ObjFields
  | .nil => .nil
  | .cons k v fs =>
    let v2 : Value :=
      match v with
      | .vStr s => .vStr (XssGuard.sanitizeString dom s)
      | .vArr a => .vArr (XssGuard.sanitizeObjectV1List dom a)
      | .vObj o => .vObj (XssGuard.sanitizeObjectV1Fields dom o)
      | .vDate _ => .vObj .nil
      | .vRegex _ => .vObj .nil
      | w => w
    .cons k v2 (XssGuard.sanitizeObjectV1Fields dom fs)

end

mutual

def XssGuard.sanitizeObjectV2 : Value → Value
  | .vStr s => .vStr s
  | .vNum n => .vNum n
  | .vBool b => .vBool b
  | .vNull => .vNull
  | .vDate _ => .vObj .nil
  | .vRegex _ => .vObj .nil
  | .vArr xs => .vArr (XssGuard.sanitizeObjectV2List xs)
  | .vObj fs => .vObj (XssGuard.sanitizeObjectV2Fields fs)

def XssGuard.sanitizeObjectV2List : ValueList → ValueList
  | .nil => .nil
  | .cons v vs =>
    let v2 : Value :=
      match v with
      | .vStr s => if scriptTagTest s then .vStr "" else .vStr (stripTagsS s)
      | .vArr a => .vArr (XssGuard.sanitizeObjectV2List a)
      | .vObj o => .vObj (XssGuard.sanitizeObjectV2Fields o)
      | .vDate _ => .vObj .nil
      | .vRegex _ => .vObj .nil
      | w => w
    .cons v2 (XssGuard.sanitizeObjectV2List vs)

def XssGuard.sanitizeObjectV2Fields : ObjFields → ObjFields
  | .nil => .nil
  | .cons k v fs =>
    let v2 : Value :=
      match v with
      | .vStr s => if scriptTagTest s then .vStr "" else .vStr (stripTagsS s)
      | .vArr a => .vArr (XssGuard.sanitizeObjectV2List a)
      | .vObj o => .vObj (XssGuard.sanitizeObjectV2Fields o)
      | .vDate _ => .vObj .nil
      | .vRegex _ => .vObj .nil
      | w => w
    .cons k v2 (XssGuard.sanitizeObjectV2Fields fs)

end

/- ### The sanitization config model and registry -/

/-- Embedding of the SanitizationConfig interface: the two strip options are
optional in the source and carried as Option Bool. -/
structure SanitizationConfig where
  allowedTags : List String
  allowedAttributes : List (String × List String)
  stripIgnoreTag : Option Bool
  stripIgnoreTagBody : Option Bool
deriving DecidableEq

def BASE_CONFIG : SanitizationConfig :=
  ⟨["b", "i", "em", "strong", "p", "br", "ul", "ol", "li", "a"],
   [("a", ["href", "title"])], some true, some false⟩

def STRICT_CONFIG : SanitizationConfig :=
  ⟨["b", "i", "em", "strong"], [], some true, some true⟩

def LIBERAL_CONFIG : SanitizationConfig :=
  ⟨["h1", "h2", "h3", "h4", "h5", "h6", "p", "br", "hr",
    "b", "i", "em", "strong", "u", "s", "sub", "sup",
    "ul", "ol", "li", "a", "img", "blockquote", "code", "pre",
    "table", "thead", "tbody", "tr", "th", "td", "div", "span"],
   [("a", ["href", "title", "target"]),
    ("img", ["src", "alt", "title", "width", "height"]),
    ("blockquote", ["cite"]), ("table", ["class"]), ("th", ["scope"]),
    ("td", ["colspan", "rowspan"])], none, none⟩

def BLOG_CONFIG : SanitizationConfig :=
  ⟨["h2", "h3", "h4", "h5", "h6", "p", "br", "b", "i", "em", "strong", "u",
    "ul", "ol", "li", "a", "img", "blockquote", "code", "div", "span"],
   [("a", ["href", "title", "rel"]), ("img", ["src", "alt", "title"]),
    ("blockquote", ["cite"]), ("div", ["class"]), ("span", ["class"])],
   some true, none⟩

def COMMENT_CONFIG : SanitizationConfig :=
  ⟨["b", "i", "em", "strong", "br", "a"], [("a", ["href", "title"])],
   some true, some true⟩

def EMAIL_CONFIG : SanitizationConfig :=
  ⟨["p", "br", "b", "i", "em", "strong", "a"], [("a", ["href", "title"])],
   some true, some true⟩

def ADMIN_CONFIG : SanitizationConfig :=
  ⟨["h1", "h2", "h3", "h4", "h5", "h6", "p", "br", "hr",
    "b", "i", "em", "strong", "u", "s", "sub", "sup",
    "ul", "ol", "li", "a", "img", "blockquote", "code", "pre",
    "table", "thead", "tbody", "tr", "th", "td",
    "div", "span", "section", "article",
    "form", "input", "textarea", "select", "option", "button", "label"],
   [("a", ["href", "title", "target", "rel"]),
    ("img", ["src", "alt", "title", "width", "height", "class"]),
    ("blockquote", ["cite"]), ("table", ["class"]),
    ("th", ["scope", "class"]), ("td", ["colspan", "rowspan", "class"]),
    ("div", ["class", "id"]), ("span", ["class", "id"]),
    ("form", ["action", "method"]),
    ("input", ["type", "name", "value", "placeholder", "required"]),
    ("textarea", ["name", "placeholder", "required", "rows", "cols"]),
    ("select", ["name", "required"]), ("option", ["value"]),
    ("button", ["type", "class"]), ("label", ["for"])], none, none⟩

/-- Embedding of the SANITIZATION_CONFIGS registry object, keys in property
order. -/
def SANITIZATION_CONFIGS : List (String × SanitizationConfig) :=
  [("base", BASE_CONFIG), ("strict", STRICT_CONFIG), ("liberal", LIBERAL_CONFIG),
   ("blog", BLOG_CONFIG), ("comment", COMMENT_CONFIG), ("email", EMAIL_CONFIG),
   ("admin", ADMIN_CONFIG)]

/-- Embedding of getConfig: plain property access on the registry object,
yielding none (the JavaScript undefined) for a name that is not a
registered key. -/
def getConfig (name : String) : Option SanitizationConfig :=
  List.lookup name SANITIZATION_CONFIGS

/-- The SENSITIVE_FIELDS constant of the sanitization types module. -/
def SENSITIVE_FIELDS : List String :=
  ["password", "confirmPassword", "passwordConfirm", "adminPassword",
   "token", "accessToken", "refreshToken", "apiKey", "secret", "privateKey"]

/- ### The sensitive-field helpers of utils/sensitive.ts, parameterized
over the key list; the sanitizer and pipeline wrappers fix the key list to
their own constants. -/

namespace Sensitive

/-- Embedding of extractSensitiveValues: the entries whose key is in the
sensitive list, in order. The source also skips entries whose value is the
JavaScript undefined; the value model carries no such value. -/
def extractSensitiveValues (sensitiveKeys : List String) : ObjFields → ObjFields
  | .nil => .nil
  | .cons k v fs =>
    if sensitiveKeys.contains k then .cons k v (extractSensitiveValues sensitiveKeys fs)
    else extractSensitiveValues sensitiveKeys fs

/-- Embedding of removeSensitiveFields: every sensitive entry replaced by
the empty string, all else kept. -/
def removeSensitiveFields (sensitiveKeys : List String) : ObjFields → ObjFields
  | .nil => .nil
  | .cons k v fs =>
    if sensitiveKeys.contains k then
      .cons k (.vStr "") (removeSensitiveFields sensitiveKeys fs)
    else .cons k v (removeSensitiveFields sensitiveKeys fs)

/-- Override step of the object spread: each property of the first object
keeps its position, its value replaced by the last matching property of the
second object when one exists. -/
def spreadOverride (b : ObjFields) : ObjFields → ObjFields
  | .nil => .nil
  | .cons k v fs => .cons k ((b.lookupLast k).getD v) (spreadOverride b fs)

/-- Properties of an object whose key is not among the given keys, in
order: the second spread appends exactly these. -/
def dropKeys (ks : List String) : ObjFields → ObjFields
  | .nil => .nil
  | .cons k v fs =>
    if ks.contains k then dropKeys ks fs else .cons k v (dropKeys ks fs)

/-- Embedding of restoreSensitiveValues, the two-spread object literal: the
sanitized properties in order with sensitive originals overriding by key,
then any sensitive property absent from the sanitized object. -/
def restoreSensitiveValues (sanitizedData sensitiveValues : ObjFields) : ObjFields :=
  ObjFields.append (spreadOverride sensitiveValues sanitizedData)
    (dropKeys sanitizedData.keys sensitiveValues)

end Sensitive

/- ### The policy-driven engine of utils/sanitizer.ts -/

/-- Global removal of both angle brackets. -/
def stripAngleL (l : List Char) : List Char :=
  l.filter (fun c => !(c = '<' || c = '>'))

/-- Global removal of the null byte. -/
def stripNullL (l : List Char) : List Char := l.filter (fun c => c.toNat != 0)

/-- The control-character class removed by the engine: x00 through x08, x0B,
x0C, x0E through x1F and x7F. -/
def isStrippedCtl (c : Char) : Bool :=
  c.toNat ≤ 8 || c.toNat = 11 || c.toNat = 12 ||
  (14 ≤ c.toNat && c.toNat ≤ 31) || c.toNat = 127

/-- Global removal of the control-character class. -/
def stripCtlL (l : List Char) : List Char := l.filter (fun c => !(isStrippedCtl c))

namespace Sanitizer

/-- Match at one position of the html-shape regex: an opening angle bracket,
an optional slash, an ASCII letter, anything, then a closing angle
bracket somewhere later. -/
def checkAfterLt : List Char → Bool
  | '/' :: c :: cs => isAsciiLetter c && cs.contains '>'
  | c :: cs => isAsciiLetter c && cs.contains '>'
  | [] => false

/-- Scan of the html-shape regex over every position. -/
def looksTagScan : List Char → Bool
  | [] => false
  | c :: cs => (c = '<' && checkAfterLt cs) || looksTagScan cs

/-- Embedding of looksLikeHtml: the html-shape regex tested against the
trimmed value. -/
def looksLikeHtml (s : String) : Bool := looksTagScan (jsTrimL s.data)

/-- Match at one position of the inline-handler regex: the letters o and n,
one or more word characters, optional whitespace, then an equals sign. -/
def matchOnAttr : List Char → Bool
  | 'o' :: 'n' :: c :: cs =>
    isWordChar c && ((cs.dropWhile isWordChar).dropWhile isRegexSpace).head? = some '='
  | _ => false

/-- Match at one position of the eval-call regex: the word eval, optional
whitespace, then an opening parenthesis. -/
def matchEvalCall : List Char → Bool
  | 'e' :: 'v' :: 'a' :: 'l' :: cs => (cs.dropWhile isRegexSpace).head? = some '('
  | _ => false

/-- Match at one position of the expression-call regex. -/
def matchExprCall : List Char → Bool
  | 'e' :: 'x' :: 'p' :: 'r' :: 'e' :: 's' :: 's' :: 'i' :: 'o' :: 'n' :: cs =>
    (cs.dropWhile isRegexSpace).head? = some '('
  | _ => false

/-- Contiguous substring test: the pattern is a prefix of some suffix. -/
def hasSubstr (pat : List Char) (l : List Char) : Bool :=
  scanAny (fun suf => List.isPrefixOf pat suf) l

/-- Embedding of isDangerous: the five case-insensitive patterns, each an
existence test over the raw value. -/
def isDangerous (s : String) : Bool :=
  let low := lowerL s.data
  hasSubstr "javascript:".data low || scanAny matchOnAttr low ||
  hasSubstr "<script".data low || scanAny matchEvalCall low ||
  scanAny matchExprCall low

/-- Embedding of sanitizeString from utils/sanitizer.ts: trim; empty gives
the empty string; html-shaped input goes to the DOM primitive with the
config tag allowlist and the flattened attribute allowlist; anything else
loses its angle brackets, null bytes and stripped control characters and is
trimmed again. The debug logging of the source has no data effect. -/
def sanitizeString (dom : DomTotal) (config : SanitizationConfig) (value : String) : String :=
  let trimmed := jsTrim value
  if trimmed = "" then ""
  else if looksLikeHtml trimmed then
    dom config.allowedTags (List.flatten (config.allowedAttributes.map Prod.snd)) trimmed
  else
    String.mk (jsTrimL (stripCtlL (stripNullL (stripAngleL trimmed.data))))

end Sanitizer

/-- Embedding of the SanitizationResult interface. -/
structure SanitizationResult (α : Type) where
  data : α
  sanitized : Bool
  warnings : List String
deriving DecidableEq

mutual

/-- Embedding of the inner sanitizeValue closure of sanitizeObject: null and
undefined and every non-string scalar pass through; a string is cleaned by
sanitizeString, flagging the outcome and appending a warning when the raw
value was dangerous; arrays and objects recurse. The closure mutation of
the sanitized flag and the warnings array is modelled by returning and
combining them. -/
def Sanitizer.sanitizeValue (dom : DomTotal) (config : SanitizationConfig) :
    Value → String → Value × Bool × List String
  | .vNull, _ => (.vNull, false, [])
  | .vStr s, path =>
    let cleaned := Sanitizer.sanitizeString dom config s
    if s = cleaned then (.vStr cleaned, false, [])
    else
      (.vStr cleaned, true,
        if Sanitizer.isDangerous s then ["Dangerous content removed from: " ++ path] else [])
  | .vArr xs, path =>
    let r := Sanitizer.sanitizeValueList dom config xs path 0
    (.vArr r.1, r.2)
  | .vObj fs, path =>
    let r := Sanitizer.sanitizeValueFields dom config fs path
    (.vObj r.1, r.2)
  | .vNum n, _ => (.vNum n, false, [])
  | .vBool b, _ => (.vBool b, false, [])
  | .vDate d, _ => (.vDate d, false, [])
  | .vRegex r, _ => (.vRegex r, false, [])

/-- Array traversal of sanitizeValue, the index building the bracketed
path. -/
def Sanitizer.sanitizeValueList (dom : DomTotal) (config : SanitizationConfig) :
    ValueList → String → Nat → ValueList × Bool × List String
  | .nil, _, _ => (.nil, false, [])
  | .cons v vs, path, i =>
    let r := Sanitizer.sanitizeValue dom config v (path ++ "[" ++ toString i ++ "]")
    let rs := Sanitizer.sanitizeValueList dom config vs path (i + 1)
    (.cons r.1 rs.1, r.2.1 || rs.2.1, r.2.2 ++ rs.2.2)

/-- Object traversal of sanitizeValue: an entry whose key is in
SENSITIVE_FIELDS passes through untouched, every other entry recurses at
the dotted path. -/
def Sanitizer.sanitizeValueFields (dom : DomTotal) (config : SanitizationConfig) :
    ObjFields → String → ObjFields × Bool × List String
  | .nil, _ => (.nil, false, [])
  | .cons k v fs, path =>
    let rest := Sanitizer.sanitizeValueFields dom config fs path
    if SENSITIVE_FIELDS.contains k then (.cons k v rest.1, rest.2)
    else
      let r := Sanitizer.sanitizeValue dom config v (if path = "" then k else path ++ "." ++ k)
      (.cons k r.1 rest.1, r.2.1 || rest.2.1, r.2.2 ++ rest.2.2)

end

/-- Embedding of sanitizeObject from utils/sanitizer.ts. -/
def Sanitizer.sanitizeObject (dom : DomTotal) (config : SanitizationConfig)
    (input : Value) : SanitizationResult Value :=
  let r := Sanitizer.sanitizeValue dom config input ""
  ⟨r.1, r.2.1, r.2.2⟩

/-- Embedding of extractSensitiveValues from utils/sanitizer.ts, the filter
over SENSITIVE_FIELDS. -/
def Sanitizer.extractSensitiveValues (data : ObjFields) : ObjFields :=
  Sensitive.extractSensitiveValues SENSITIVE_FIELDS data

/-- Embedding of removeSensitiveFields from utils/sanitizer.ts. -/
def Sanitizer.removeSensitiveFields (data : ObjFields) : ObjFields :=
  Sensitive.removeSensitiveFields SENSITIVE_FIELDS data

/-- Embedding of restoreSensitiveValues from utils/sanitizer.ts, the
two-spread object literal. -/
def Sanitizer.restoreSensitiveValues (sanitizedData sensitiveValues : ObjFields) : ObjFields :=
  Sensitive.restoreSensitiveValues sanitizedData sensitiveValues

/-- Embedding of sanitizeRequestData from utils/sanitizer.ts: extract the
sensitive entries, neutralize them to empty strings, sanitize the object,
then overlay the extracted originals. -/
def Sanitizer.sanitizeRequestData (dom : DomTotal) (config : SanitizationConfig)
    (data : ObjFields) : SanitizationResult ObjFields :=
  let sensitiveValues := Sanitizer.extractSensitiveValues data
  let withoutSensitive := Sanitizer.removeSensitiveFields data
  let result := Sanitizer.sanitizeObject dom config (.vObj withoutSensitive)
  ⟨Sanitizer.restoreSensitiveValues (objFields result.data) sensitiveValues,
   result.sanitized, result.warnings⟩

/- ### The sensitive-field pipeline of the request-data module -/

namespace Part4

/-- The local SENSITIVE_FIELDS constant of the request-data module. -/
def SENSITIVE_FIELDS : List String :=
  ["password", "confirmPassword", "passwordConfirm", "adminPassword"]

/-- Embedding of sanitizeRequestData from the request-data module: extract
and neutralize its four sensitive keys, sanitize with the object sanitizer
of the xssGuard module, then overlay the originals. -/
def sanitizeRequestData (data : ObjFields) : ObjFields :=
  let sensitiveValues := Sensitive.extractSensitiveValues SENSITIVE_FIELDS data
  let preparedData := Sensitive.removeSensitiveFields SENSITIVE_FIELDS data
  let sanitizedData := objFields (XssGuard.sanitizeObjectV2 (.vObj preparedData))
  Sensitive.restoreSensitiveValues sanitizedData sensitiveValues

end Part4

/- ### The text-display path -/

/-- Input domain of the text-display path: string, number, null or
undefined. -/
inductive TextValue where
  | str : String → TextValue
  | num : Int → TextValue
  | nullV : TextValue
  | undefinedV : TextValue
deriving DecidableEq

/-- Modelled from the spec: the text-display entry point (safeDisplay.text)
is documented in the repository readme but its defining module is not among
the source files. Per the spec, a numeric input is stringified to its
decimal string and null or undefined becomes the empty string before the
entity escaping of escapeHTML is applied. -/
def safeDisplayText : TextValue → String
  | .str s => XssGuard.escapeHTML s
  | .num n => XssGuard.escapeHTML (toString n)
  | .nullV => XssGuard.escapeHTML ""
  | .undefinedV => XssGuard.escapeHTML ""

/- ### Shape equality

shapeEq a b holds when b has exactly the shape of a with every non-string
scalar leaf equal and string leaves arbitrary: identical ordered key sets
for objects, identical length and order for arrays. -/

mutual

def shapeEq : Value → Value → Bool
  | .vStr _, .vStr _ => true
  | .vNum a, .vNum b => a == b
  | .vBool a, .vBool b => a == b
  | .vNull, .vNull => true
  | .vDate a, .vDate b => a == b
  | .vRegex a, .vRegex b => a == b
  | .vArr xs, .vArr ys => shapeEqList xs ys
  | .vObj fs, .vObj gs => shapeEqFields fs gs
  | _, _ => false

def shapeEqList : ValueList → ValueList → Bool
  | .nil, .nil => true
  | .cons v vs, .cons w ws => shapeEq v w && shapeEqList vs ws
  | _, _ => false

def shapeEqFields : ObjFields → ObjFields → Bool
  | .nil, .nil => true
  | .cons k1 v fs, .cons k2 w gs => k1 == k2 && shapeEq v w && shapeEqFields fs gs
  | _, _ => false

end

/- ### Key-preservation and lookup lemmas for the sensitive-field pipelines -/

theorem mem_keys_of_lookup : (fs : ObjFields) → ∀ (k : String) (v : Value),
    fs.lookup k = some v → k ∈ fs.keys
  | .nil => by intro k v h; simp [ObjFields.lookup] at h
  | .cons k1 w fs => by
    intro k v h
    by_cases hk : k1 = k
    · simp [ObjFields.keys, hk]
    · simp only [ObjFields.lookup, if_neg hk] at h
      exact List.mem_cons_of_mem k1 (mem_keys_of_lookup fs k v h)

theorem keys_removeSensitiveFields (S : List String) : (fs : ObjFields) →
    (Sensitive.removeSensitiveFields S fs).keys = fs.keys
  | .nil => rfl
  | .cons k v fs => by
    by_cases h : k ∈ S <;>
      simp [Sensitive.removeSensitiveFields, ObjFields.keys, h,
        keys_removeSensitiveFields S fs]

theorem keys_sanitizeValueFields (dom : DomTotal) (config : SanitizationConfig)
    (path : String) : (fs : ObjFields) →
    (Sanitizer.sanitizeValueFields dom config fs path).1.keys = fs.keys
  | .nil => rfl
  | .cons k v fs => by
    by_cases h : k ∈ SENSITIVE_FIELDS <;>
      simp [Sanitizer.sanitizeValueFields, ObjFields.keys, h,
        keys_sanitizeValueFields dom config path fs]

theorem keys_sanitizeObjectV2Fields : (fs : ObjFields) →
    (XssGuard.sanitizeObjectV2Fields fs).keys = fs.keys
  | .nil => rfl
  | .cons k v fs => by
    unfold XssGuard.sanitizeObjectV2Fields
    simp [ObjFields.keys, keys_sanitizeObjectV2Fields fs]

theorem lookupLast_extract_none (S : List String) : (fs : ObjFields) → ∀ (k : String),
    k ∉ fs.keys → (Sensitive.extractSensitiveValues S fs).lookupLast k = none
  | .nil => by intro k _; rfl
  | .cons k1 v fs => by
    intro k hk
    simp only [ObjFields.keys, List.mem_cons, not_or] at hk
    have h2 := lookupLast_extract_none S fs k hk.2
    have hk1 : ¬ k1 = k := fun e => hk.1 e.symm
    by_cases h : k1 ∈ S
    · simp [Sensitive.extractSensitiveValues, h, ObjFields.lookupLast, h2, hk1]
    · simp [Sensitive.extractSensitiveValues, h, h2]

theorem lookupLast_extract (S : List String) : (fs : ObjFields) → ∀ (k : String) (v : Value),
    k ∈ S → fs.keys.Nodup → fs.lookup k = some v →
    (Sensitive.extractSensitiveValues S fs).lookupLast k = some v
  | .nil => by intro k v _ _ h; simp [ObjFields.lookup] at h
  | .cons k1 w fs => by
    intro k v hS hnd h
    have hnd2 := List.nodup_cons.mp (by simpa [ObjFields.keys] using hnd)
    by_cases hk : k1 = k
    · subst hk
      simp [ObjFields.lookup] at h
      have hnone := lookupLast_extract_none S fs k1 hnd2.1
      simp [Sensitive.extractSensitiveValues, hS, ObjFields.lookupLast, hnone, h]
    · simp only [ObjFields.lookup, if_neg hk] at h
      have hrec := lookupLast_extract S fs k v hS hnd2.2 h
      by_cases hkeep : k1 ∈ S
      · simp [Sensitive.extractSensitiveValues, hkeep, ObjFields.lookupLast, hrec]
      · simp [Sensitive.extractSensitiveValues, hkeep, hrec]

theorem lookup_spreadOverride_append (b c : ObjFields) : (a : ObjFields) →
    ∀ (k : String) (v : Value), k ∈ a.keys → b.lookupLast k = some v →
    (ObjFields.append (Sensitive.spreadOverride b a) c).lookup k = some v
  | .nil => by intro k v h _; simp [ObjFields.keys] at h
  | .cons k1 w fs => by
    intro k v hk hb
    by_cases h1 : k1 = k
    · subst h1
      simp [Sensitive.spreadOverride, ObjFields.append, ObjFields.lookup, hb]
    · have hk2 : k ∈ fs.keys := by
        rcases List.mem_cons.mp (by simpa [ObjFields.keys] using hk) with e | e
        · exact absurd e.symm h1
        · exact e
      simp [Sensitive.spreadOverride, ObjFields.append, ObjFields.lookup, h1,
        lookup_spreadOverride_append b c fs k v hk2 hb]

theorem lookup_restore (a b : ObjFields) (k : String) (v : Value)
    (ha : k ∈ a.keys) (hb : b.lookupLast k = some v) :
    (Sensitive.restoreSensitiveValues a b).lookup k = some v :=
  lookup_spreadOverride_append b (Sensitive.dropKeys a.keys b) a k v ha hb

/-- Backbone of both request pipelines: any key-preserving sanitization step
between neutralize and restore leaves every sensitive entry of a key-unique
object at its original value. -/
theorem pipeline_restores (S : List String) (g : ObjFields → ObjFields)
    (data : ObjFields) (k : String) (v : Value)
    (hg : ∀ fs, (g fs).keys = fs.keys)
    (hS : k ∈ S) (hnd : data.keys.Nodup) (h : data.lookup k = some v) :
    (Sensitive.restoreSensitiveValues (g (Sensitive.removeSensitiveFields S data))
      (Sensitive.extractSensitiveValues S data)).lookup k = some v := by
  apply lookup_restore
  · rw [hg, keys_removeSensitiveFields]
    exact mem_keys_of_lookup data k v h
  · exact lookupLast_extract S data k v hS hnd h

/-- C1: for every mapping with unique keys and every sensitive key present
in it, both request pipelines return the original value at that key
bit-for-bit, whatever the DOM primitive and configuration: the engine of
utils/sanitizer.ts with its ten-key sensitive list, and the request-data
pipeline with its four-key list over the xssGuard object sanitizer. -/
theorem claim1_sensitive_keys_restored :
    (∀ (dom : DomTotal) (config : SanitizationConfig) (data : ObjFields)
        (k : String) (v : Value),
        k ∈ SENSITIVE_FIELDS → data.keys.Nodup → data.lookup k = some v →
        (Sanitizer.sanitizeRequestData dom config data).data.lookup k = some v) ∧
    (∀ (data : ObjFields) (k : String) (v : Value),
        k ∈ Part4.SENSITIVE_FIELDS → data.keys.Nodup → data.lookup k = some v →
        (Part4.sanitizeRequestData data).lookup k = some v) := by
  constructor
  · intro dom config data k v hS hnd h
    have e : (Sanitizer.sanitizeRequestData dom config data).data =
        Sensitive.restoreSensitiveValues
          ((Sanitizer.sanitizeValueFields dom config
            (Sensitive.removeSensitiveFields SENSITIVE_FIELDS data) "").1)
          (Sensitive.extractSensitiveValues SENSITIVE_FIELDS data) := rfl
    rw [e]
    exact pipeline_restores SENSITIVE_FIELDS
      (fun fs => (Sanitizer.sanitizeValueFields dom config fs "").1) data k v
      (fun fs => keys_sanitizeValueFields dom config "" fs) hS hnd h
  · intro data k v hS hnd h
    have e : Part4.sanitizeRequestData data =
        Sensitive.restoreSensitiveValues
          (XssGuard.sanitizeObjectV2Fields
            (Sensitive.removeSensitiveFields Part4.SENSITIVE_FIELDS data))
          (Sensitive.extractSensitiveValues Part4.SENSITIVE_FIELDS data) := rfl
    rw [e]
    exact pipeline_restores Part4.SENSITIVE_FIELDS XssGuard.sanitizeObjectV2Fields data k v
      keys_sanitizeObjectV2Fields hS hnd h

/-- Witness for C1 at concrete inputs: a password carrying markup survives
both pipelines unchanged. -/
theorem claim1_witness :
    (Sanitizer.sanitizeRequestData domTotalModel BASE_CONFIG
        (.cons "password" (.vStr "<script>x</script>")
          (.cons "name" (.vStr " hi ") .nil))).data.lookup "password"
      = some (.vStr "<script>x</script>") ∧
    (Part4.sanitizeRequestData
        (.cons "adminPassword" (.vStr "<b>p</b>") .nil)).lookup "adminPassword"
      = some (.vStr "<b>p</b>") :=
  ⟨claim1_sensitive_keys_restored.1 domTotalModel BASE_CONFIG _ "password" _
      (by decide) (by decide) (by decide),
   claim1_sensitive_keys_restored.2 _ "adminPassword" _
      (by decide) (by decide) (by decide)⟩

/- ### C5: the sensitive-key exemption of the structural sanitizer -/

/-- Lookup of a sensitive key through the object traversal of the engine of
utils/sanitizer.ts is untouched; the statement quantifies over the fields
and path of an arbitrary object node, hence covers every nesting depth of
the recursion. -/
theorem sanitizeValueFields_lookup_sensitive (dom : DomTotal)
    (config : SanitizationConfig) (path : String) (k : String)
    (hk : k ∈ SENSITIVE_FIELDS) : (fs : ObjFields) →
    (Sanitizer.sanitizeValueFields dom config fs path).1.lookup k = fs.lookup k
  | .nil => rfl
  | .cons k1 v fs => by
    have ih := sanitizeValueFields_lookup_sensitive dom config path k hk fs
    unfold Sanitizer.sanitizeValueFields
    by_cases h1 : k1 ∈ SENSITIVE_FIELDS
    · by_cases hkk : k1 = k
      · subst hkk
        simp [h1, ObjFields.lookup, ih]
      · simp [h1, ObjFields.lookup, hkk, ih]
    · have hk1 : ¬ k1 = k := fun e => h1 (e ▸ hk)
      simp [h1, ObjFields.lookup, hk1, ih]

/-- C5 (amended): in the engine of utils/sanitizer.ts, every key of
SENSITIVE_FIELDS is passed through with its value unchanged at every
nesting depth of the traversal; the xssGuard object sanitizer carries no
such exemption, as its counterexample shows. -/
theorem claim5_sensitive_exemption_depth (dom : DomTotal)
    (config : SanitizationConfig) (path : String) (k : String) (fs : ObjFields)
    (hk : k ∈ SENSITIVE_FIELDS) :
    (Sanitizer.sanitizeValueFields dom config fs path).1.lookup k = fs.lookup k :=
  sanitizeValueFields_lookup_sensitive dom config path k hk fs

/-- Witness for C5: a token value with markup, nested one level deep, is
looked up unchanged after sanitization. -/
theorem claim5_witness :
    (Sanitizer.sanitizeValueFields domTotalModel BASE_CONFIG
        (.cons "token" (.vStr "<script>t</script>") .nil) "user").1.lookup "token"
      = (ObjFields.cons "token" (.vStr "<script>t</script>") .nil).lookup "token" :=
  claim5_sensitive_exemption_depth domTotalModel BASE_CONFIG "user" "token"
    (.cons "token" (.vStr "<script>t</script>") .nil) (by decide)

/-- Counterexample for C5 as stated: the xssGuard object sanitizer rewrites
the value of the sensitive key password, so the exemption does not hold
across the structural sanitizers of the repository. -/
theorem claim5_counterexample :
    XssGuard.sanitizeObjectV2 (.vObj (.cons "password" (.vStr "<b>x</b>") .nil))
        = .vObj (.cons "password" (.vStr "x") .nil) ∧
      Value.vStr "x" ≠ Value.vStr "<b>x</b>" := by
  exact ⟨by decide, by decide⟩

/- ### C4: the URL validators on the four specified inputs -/

/-- C4: both sanitizeUrl copies return the hash fallback on the javascript
scheme and on empty input, prepend the https scheme to a bare domain, and
return an https URL unchanged. -/
theorem claim4_url_validation :
    XssGuard.sanitizeUrlV2 "javascript:alert(1)" = "#" ∧
    XssGuard.sanitizeUrlV2 "example.com" = "https://example.com" ∧
    XssGuard.sanitizeUrlV2 "https://safe.com" = "https://safe.com" ∧
    XssGuard.sanitizeUrlV2 "" = "#" ∧
    XssGuard.sanitizeUrlV1 "javascript:alert(1)" = "#" ∧
    XssGuard.sanitizeUrlV1 "example.com" = "https://example.com" ∧
    XssGuard.sanitizeUrlV1 "https://safe.com" = "https://safe.com" ∧
    XssGuard.sanitizeUrlV1 "" = "#" := by
  refine ⟨?_, ?_, ?_, ?_, ?_, ?_, ?_, ?_⟩ <;> decide

/- ### C6: entity escaping -/

/-- C6: escapeHTML on the specified input produces exactly the specified
entity sequence; the two extra conjuncts exhibit the ampersand-first order,
an ampersand becoming its entity exactly once and the ampersand introduced
by the later angle-bracket replacement staying untouched. -/
theorem claim6_entity_escaping :
    XssGuard.escapeHTML "<div>\"'&</div>" = "&lt;div&gt;&quot;&#039;&amp;&lt;/div&gt;" ∧
    XssGuard.escapeHTML "&" = "&amp;" ∧
    XssGuard.escapeHTML "<" = "&lt;" := by
  refine ⟨?_, ?_, ?_⟩ <;> decide

/- ### C8: the policy registry lookup -/

/-- Registry lookup on a key-value list yields none whenever the name is
not among the keys. -/
theorem lookup_eq_none_of_not_mem_keys :
    (l : List (String × SanitizationConfig)) → ∀ (k : String),
    k ∉ l.map Prod.fst → List.lookup k l = none
  | [] => by intro k _; rfl
  | (k1, v1) :: t => by
    intro k hk
    simp only [List.map_cons, List.mem_cons, not_or] at hk
    have h1 : (k == k1) = false := by
      simp [hk.1]
    simp [List.lookup, h1, lookup_eq_none_of_not_mem_keys t k hk.2]

/-- C8 (amended): getConfig is a plain registry property access; for every
name that is not a registered key it silently yields none, the JavaScript
undefined, rather than raising any error. Unregistered names are excluded
statically by the ConfigName union type, not by a runtime check. -/
theorem claim8_registry_lookup (name : String)
    (h : name ∉ SANITIZATION_CONFIGS.map Prod.fst) :
    getConfig name = none :=
  lookup_eq_none_of_not_mem_keys SANITIZATION_CONFIGS name h

/-- Witness for C8 at a concrete unregistered name. -/
theorem claim8_witness : getConfig "nosuch" = none :=
  claim8_registry_lookup "nosuch" (by decide)

/-- Counterexample for C8 as stated: at an unregistered name the registry
accessor returns the absent policy silently, the very outcome the claim
says is replaced by an UnknownPolicyError; no error value or throw site
exists in the registry module. -/
theorem claim8_counterexample : getConfig "unknownPolicy" = none := by decide

/- ### C9: the text-display path -/

/-- C9: on the text-display path a numeric input is rendered as its decimal
string and then escaped, and null and undefined inputs render as the empty
string; the concrete conjuncts evaluate the escaping on actual digits. -/
theorem claim9_text_display_stringify :
    (∀ (n : Int), safeDisplayText (.num n) = XssGuard.escapeHTML (toString n)) ∧
    safeDisplayText .nullV = "" ∧
    safeDisplayText .undefinedV = "" ∧
    safeDisplayText (.num 123) = "123" ∧
    safeDisplayText (.num (-5)) = "-5" := by
  refine ⟨fun n => rfl, by decide, by decide, by decide, by decide⟩

/- ### C10: the non-HTML scalar path of the engine -/

/-- C10: for every input whose trimmed form does not look like HTML, the
engine returns the trimmed input with angle brackets, null bytes and the
stripped control characters removed and trimmed again; in particular an
input that is only padded with spaces is altered, which sets the sanitized
flag of the structural outcome. -/
theorem claim10_nonhtml_strip :
    (∀ (dom : DomTotal) (config : SanitizationConfig) (s : String),
        Sanitizer.looksLikeHtml (jsTrim s) = false →
        Sanitizer.sanitizeString dom config s =
          String.mk (jsTrimL (stripCtlL (stripNullL (stripAngleL (jsTrim s).data))))) ∧
    (∀ (dom : DomTotal) (config : SanitizationConfig),
        (Sanitizer.sanitizeObject dom config
          (.vObj (.cons "a" (.vStr "  hello  ") .nil))).sanitized = true) := by
  constructor
  · intro dom config s hhtml
    by_cases h0 : jsTrim s = ""
    · simp [Sanitizer.sanitizeString, h0]
      decide
    · simp [Sanitizer.sanitizeString, h0, hhtml]
  · intro dom config
    rfl

/-- Witness for C10 at the concrete padded input. -/
theorem claim10_witness :
    Sanitizer.sanitizeString domTotalModel BASE_CONFIG "  hello  " =
        String.mk (jsTrimL (stripCtlL (stripNullL (stripAngleL (jsTrim "  hello  ").data)))) ∧
    (Sanitizer.sanitizeObject domTotalModel BASE_CONFIG
        (.vObj (.cons "a" (.vStr "  hello  ") .nil))).sanitized = true :=
  ⟨claim10_nonhtml_strip.1 domTotalModel BASE_CONFIG "  hello  " (by decide),
   claim10_nonhtml_strip.2 domTotalModel BASE_CONFIG⟩

/- ### C2: the fail-safe fallback when the DOM primitive throws -/

/-- C2 (amended): when the DOM primitive throws, sanitizeString returns the
regex tag strip of the input without propagating the exception, and
sanitizeHTML falls back through sanitizeString to the same strip when the
primitive throws on both calls; the strip leaves no complete tag behind.
Lone angle-bracket characters that form no complete tag may remain, as the
counterexample shows, so the output is not always free of raw markup
characters. -/
theorem claim2_fallback_strip :
    (∀ (dom : DomPrim) (v : String), v ≠ "" → dom [] [] v = none →
        XssGuard.sanitizeString dom v = stripTagsS v) ∧
    (∀ (dom : DomPrim) (tags : List String) (v : String), v ≠ "" →
        dom tags ["class", "style"] v = none → dom [] [] v = none →
        XssGuard.sanitizeHTML dom v tags = stripTagsS v) ∧
    (∀ (v : String), cleanTags (stripTagsS v).data = true) := by
  refine ⟨?_, ?_, ?_⟩
  · intro dom v hv hdom
    simp [XssGuard.sanitizeString, hv, hdom]
  · intro dom tags v hv hdom1 hdom2
    simp [XssGuard.sanitizeHTML, XssGuard.sanitizeString, hv, hdom1, hdom2]
  · intro v
    exact cleanTags_stripTagsL v.data

/-- Witness for C2 with a primitive that always throws. -/
theorem claim2_witness :
    XssGuard.sanitizeString (fun _ _ _ => none) "<script>alert(1)</script>"
        = stripTagsS "<script>alert(1)</script>" ∧
    XssGuard.sanitizeHTML (fun _ _ _ => none) "<b>x</b><script>y</script>" ["b"]
        = stripTagsS "<b>x</b><script>y</script>" ∧
    cleanTags (stripTagsS "<script>alert(1)</script>").data = true :=
  ⟨claim2_fallback_strip.1 (fun _ _ _ => none) "<script>alert(1)</script>" (by decide) rfl,
   claim2_fallback_strip.2.1 (fun _ _ _ => none) ["b"] "<b>x</b><script>y</script>"
     (by decide) rfl rfl,
   claim2_fallback_strip.2.2 "<script>alert(1)</script>"⟩

/-- Counterexample for C2 as stated: the unclosed tag input is dangerous by
the isDangerous patterns of the engine, yet the fallback strip leaves its
opening angle bracket in the output, so the failure path does not guarantee
the absence of raw markup characters. -/
theorem claim2_counterexample :
    Sanitizer.isDangerous "<script" = true ∧
    (XssGuard.sanitizeString (fun _ _ _ => none) "<script").data.contains '<' = true := by
  exact ⟨by decide, by decide⟩

/- ### C3: shape preservation of the structural sanitizer -/

mutual

theorem shapeEq_refl : (v : Value) → shapeEq v v = true
  | .vStr _ => rfl
  | .vNum n => by simp [shapeEq]
  | .vBool b => by simp [shapeEq]
  | .vNull => rfl
  | .vDate d => by simp [shapeEq]
  | .vRegex r => by simp [shapeEq]
  | .vArr xs => by
    unfold shapeEq
    exact shapeEqList_refl xs
  | .vObj fs => by
    unfold shapeEq
    exact shapeEqFields_refl fs

theorem shapeEqList_refl : (xs : ValueList) → shapeEqList xs xs = true
  | .nil => rfl
  | .cons v vs => by
    unfold shapeEqList
    simp [shapeEq_refl v, shapeEqList_refl vs]

theorem shapeEqFields_refl : (fs : ObjFields) → shapeEqFields fs fs = true
  | .nil => rfl
  | .cons k v fs => by
    unfold shapeEqFields
    simp [shapeEq_refl v, shapeEqFields_refl fs]

end

mutual

theorem sanitizeValue_shape (dom : DomTotal) (config : SanitizationConfig) :
    (v : Value) → (path : String) →
    shapeEq v (Sanitizer.sanitizeValue dom config v path).1 = true
  | .vNull, _ => rfl
  | .vStr s, path => by
    have e : (Sanitizer.sanitizeValue dom config (.vStr s) path).1
        = .vStr (Sanitizer.sanitizeString dom config s) := by
      unfold Sanitizer.sanitizeValue
      dsimp only
      split <;> rfl
    rw [e]
    rfl
  | .vNum n, _ => by simp [Sanitizer.sanitizeValue, shapeEq]
  | .vBool b, _ => by simp [Sanitizer.sanitizeValue, shapeEq]
  | .vDate d, _ => by simp [Sanitizer.sanitizeValue, shapeEq]
  | .vRegex r, _ => by simp [Sanitizer.sanitizeValue, shapeEq]
  | .vArr xs, path => by
    unfold Sanitizer.sanitizeValue shapeEq
    exact sanitizeValueList_shape dom config xs path 0
  | .vObj fs, path => by
    unfold Sanitizer.sanitizeValue shapeEq
    exact sanitizeValueFields_shape dom config fs path

theorem sanitizeValueList_shape (dom : DomTotal) (config : SanitizationConfig) :
    (xs : ValueList) → (path : String) → (i : Nat) →
    shapeEqList xs (Sanitizer.sanitizeValueList dom config xs path i).1 = true
  | .nil, _, _ => rfl
  | .cons v vs, path, i => by
    unfold Sanitizer.sanitizeValueList shapeEqList
    simp [sanitizeValue_shape dom config v (path ++ "[" ++ toString i ++ "]"),
      sanitizeValueList_shape dom config vs path (i + 1)]

theorem sanitizeValueFields_shape (dom : DomTotal) (config : SanitizationConfig) :
    (fs : ObjFields) → (path : String) →
    shapeEqFields fs (Sanitizer.sanitizeValueFields dom config fs path).1 = true
  | .nil, _ => rfl
  | .cons k v fs, path => by
    unfold Sanitizer.sanitizeValueFields
    by_cases h : k ∈ SENSITIVE_FIELDS
    · simp [h, shapeEqFields, shapeEq_refl v, sanitizeValueFields_shape dom config fs path]
    · simp [h, shapeEqFields,
        sanitizeValue_shape dom config v (if path = "" then k else path ++ "." ++ k),
        sanitizeValueFields_shape dom config fs path]

end

/-- C3 (amended): the structural sanitizer of utils/sanitizer.ts preserves
shape, whatever value, path, DOM primitive and configuration: mappings keep
their ordered key set, sequences their length and order, and every
non-string scalar leaf, including date-like and regex-like values, is
returned unchanged, only string leaves possibly changing; the xssGuard
object sanitizer does not share the date and regex part, as the
counterexample shows. -/
theorem claim3_shape_preservation (dom : DomTotal) (config : SanitizationConfig)
    (v : Value) (path : String) :
    shapeEq v (Sanitizer.sanitizeValue dom config v path).1 = true :=
  sanitizeValue_shape dom config v path

/-- Counterexample for C3 as stated: the xssGuard object sanitizer turns a
date-like leaf into an empty mapping instead of returning it unchanged. -/
theorem claim3_counterexample :
    XssGuard.sanitizeObjectV1 domStripModel (.vObj (.cons "d" (.vDate 0) .nil))
        ≠ .vObj (.cons "d" (.vDate 0) .nil) ∧
      XssGuard.sanitizeObjectV1 domStripModel (.vObj (.cons "d" (.vDate 0) .nil))
        = .vObj (.cons "d" (.vObj .nil) .nil) := by
  exact ⟨by decide, by decide⟩

/- ### C7: idempotence of the two scalar sanitizers

Both operations delegate their success path to the external DOM primitive,
so their idempotence is exactly conditional on the primitive behaving as a
sanitizer: outputs of a call are fixed points of a repeated call with the
same allowlists, outputs under the empty allowlists are fixed points under
any allowlists, and a tag-stripped string is either a fixed point of the
primitive or makes it throw again. The witness discharges the three
assumptions with a concrete primitive. -/

/-- C7: sanitizeString and sanitizeHTML of the xssGuard module are
idempotent for every string and fixed tag allowlist, given the fixed-point
assumptions on the DOM primitive. -/
theorem claim7_idempotence (dom : DomPrim)
    (h1 : ∀ (tags attrs : List String) (s r : String),
        dom [] [] s = some r → r ≠ "" → dom tags attrs r = some r)
    (h2 : ∀ (tags attrs : List String) (s r : String),
        dom tags attrs s = some r → r ≠ "" → dom tags attrs r = some r)
    (h3 : ∀ (tags attrs : List String) (s : String),
        dom tags attrs (stripTagsS s) = none ∨
          dom tags attrs (stripTagsS s) = some (stripTagsS s)) :
    (∀ (s : String),
        XssGuard.sanitizeString dom (XssGuard.sanitizeString dom s)
          = XssGuard.sanitizeString dom s) ∧
    (∀ (tags : List String) (s : String),
        XssGuard.sanitizeHTML dom (XssGuard.sanitizeHTML dom s tags) tags
          = XssGuard.sanitizeHTML dom s tags) := by
  have hss : ∀ (s : String),
      XssGuard.sanitizeString dom (XssGuard.sanitizeString dom s)
        = XssGuard.sanitizeString dom s := by
    intro s
    by_cases hs : s = ""
    · simp [XssGuard.sanitizeString, hs]
    · cases hdom : dom [] [] s with
      | some r =>
        by_cases hr : r = ""
        · simp [XssGuard.sanitizeString, hs, hdom, hr]
        · have hfix := h2 [] [] s r hdom hr
          simp [XssGuard.sanitizeString, hs, hdom, hr, hfix]
      | none =>
        by_cases ht : stripTagsS s = ""
        · simp [XssGuard.sanitizeString, hs, hdom, ht]
        · rcases h3 [] [] s with hx | hx
          · simp [XssGuard.sanitizeString, hs, hdom, ht, hx, stripTagsS_idem]
          · simp [XssGuard.sanitizeString, hs, hdom, ht, hx]
  refine ⟨hss, ?_⟩
  intro tags s
  by_cases hs : s = ""
  · simp [XssGuard.sanitizeHTML, hs]
  · cases hdomc : dom tags ["class", "style"] s with
    | some r =>
      by_cases hr : r = ""
      · simp [XssGuard.sanitizeHTML, hs, hdomc, hr]
      · have hfix := h2 tags ["class", "style"] s r hdomc hr
        simp [XssGuard.sanitizeHTML, hs, hdomc, hr, hfix]
    | none =>
      by_cases hu : XssGuard.sanitizeString dom s = ""
      · simp [XssGuard.sanitizeHTML, hs, hdomc, hu]
      · cases hdome : dom [] [] s with
        | some w =>
          have hw : XssGuard.sanitizeString dom s = w := by
            simp [XssGuard.sanitizeString, hs, hdome]
          have hwne : w ≠ "" := hw ▸ hu
          have hfix2 := h1 tags ["class", "style"] s w hdome hwne
          simp [XssGuard.sanitizeHTML, hs, hdomc, hw, hwne, hfix2]
        | none =>
          have hw : XssGuard.sanitizeString dom s = stripTagsS s := by
            simp [XssGuard.sanitizeString, hs, hdome]
          have hwne : stripTagsS s ≠ "" := hw ▸ hu
          rcases h3 tags ["class", "style"] s with hx | hx
          · rcases h3 [] [] s with hy | hy
            · simp [XssGuard.sanitizeHTML, XssGuard.sanitizeString, hs, hdome, hdomc,
                hw, hwne, hx, hy, stripTagsS_idem]
            · simp [XssGuard.sanitizeHTML, XssGuard.sanitizeString, hs, hdome, hdomc,
                hw, hwne, hx, hy]
          · simp [XssGuard.sanitizeHTML, XssGuard.sanitizeString, hs, hdome, hdomc,
              hw, hwne, hx]

/-- Witness for C7: the three primitive assumptions hold of the concrete
strip-model primitive, and idempotence follows at concrete inputs. -/
theorem claim7_witness :
    XssGuard.sanitizeString domStripModel (XssGuard.sanitizeString domStripModel "<p>hi")
        = XssGuard.sanitizeString domStripModel "<p>hi" ∧
    XssGuard.sanitizeHTML domStripModel
        (XssGuard.sanitizeHTML domStripModel "<b>x</b>" ["b"]) ["b"]
        = XssGuard.sanitizeHTML domStripModel "<b>x</b>" ["b"] := by
  have hm1 : ∀ (tags attrs : List String) (s r : String),
      domStripModel [] [] s = some r → r ≠ "" → domStripModel tags attrs r = some r := by
    intro tags attrs s r h _
    simp [domStripModel] at h ⊢
    rw [← h, stripTagsS_idem]
  have hm2 : ∀ (tags attrs : List String) (s r : String),
      domStripModel tags attrs s = some r → r ≠ "" → domStripModel tags attrs r = some r := by
    intro tags attrs s r h _
    simp [domStripModel] at h ⊢
    rw [← h, stripTagsS_idem]
  have hm3 : ∀ (tags attrs : List String) (s : String),
      domStripModel tags attrs (stripTagsS s) = none ∨
        domStripModel tags attrs (stripTagsS s) = some (stripTagsS s) := by
    intro tags attrs s
    exact Or.inr (by simp [domStripModel, stripTagsS_idem])
  exact ⟨(claim7_idempotence domStripModel hm1 hm2 hm3).1 "<p>hi",
         (claim7_idempotence domStripModel hm1 hm2 hm3).2 ["b"] "<b>x</b>"⟩
